import Mathlib

/-!
Verification development for the progressive-disclosure response pipeline of
the exa MCP server: the token estimator (`src/utils/tokenEstimator.ts`), the
result cache (`src/utils/resultCache.ts`), the response formatter
(`src/utils/responseFormatter.ts`) and the `retrieve_result` tool handler
(`src/tools/webSearch.ts`), shallowly embedded in Lean.

Modelling conventions:
* JS `number` values that hold integers (timestamps, ttl, indices, token
  budgets) are `Int`; values that may be fractional (`score`, cost, the
  intermediate token arithmetic) are `ℚ`.  The floating-point expressions in
  the source stay within ranges where IEEE doubles compute the exact rational
  result, so ℚ is a faithful model.
* The cache directory is a list of files `CacheFs`; file names are the names
  inside the cache directory (`path.join(cacheDir, n)` is abstracted to `n`,
  which preserves the fact that the name is built from the raw identifier).
  A file whose content does not parse as a `CachedSearchResult` is modelled
  with `data = none` (JSON.parse throwing).
* Operations that touch the file system also return the list of file paths
  they accessed (`existsSync` / `readFileSync` / `unlinkSync` targets), so
  that "no storage access" is expressible.
* JS string truthiness (`s || d`, `s ? a : b`): the empty string is falsy.
-/

namespace ExaMcp

/-- JS `s || d` for strings: the empty string is falsy. -/
def jsOrStr (s d : String) : String := if s = "" then d else s

/-- JS truthiness of an optional string: `undefined` and `""` are falsy. -/
def jsTruthyOpt (s : Option String) : Bool :=
  match s with
  | none => false
  | some t => t ≠ ""

/-- JS `a || b` on optional strings (used for `resolvedSearchType || searchType`). -/
def jsOrOpt (a b : Option String) : Option String :=
  if jsTruthyOpt a then a else b

/-- `String.startsWith`, computed on the underlying character list
(kernel-reducible, unlike the byte-based core implementation). -/
def strStartsWith (s p : String) : Bool :=
  decide (s.data.take p.data.length = p.data)

/-- `String.endsWith`, computed on the underlying character list. -/
def strEndsWith (s p : String) : Bool :=
  decide (p.data.length ≤ s.data.length) &&
    decide (s.data.drop (s.data.length - p.data.length) = p.data)

/-- Drop whitespace from both ends of a character list — JS `String.prototype.trim`
(the JS whitespace set is modelled by `Char.isWhitespace`). -/
def trimChars (l : List Char) : List Char :=
  ((l.dropWhile Char.isWhitespace).reverse.dropWhile Char.isWhitespace).reverse

/-- JS `String.prototype.trim`. -/
def trimStr (s : String) : String := String.mk (trimChars s.data)

/-- JS `s.substring(0, n)` (an `Int` count, clamped below at 0 as in JS). -/
def jsSubstring (s : String) (n : Int) : String := String.mk (s.data.take n.toNat)

/-- Number of words of a text: JS `text.split(/\s+/).filter(w => w.length > 0).length`,
i.e. the number of maximal runs of non-whitespace characters.  The flag records
whether the previous character belonged to a word. -/
def countWordsAux : Bool → List Char → Nat
  | _, [] => 0
  | inWord, c :: rest =>
    if Char.isWhitespace c then countWordsAux false rest
    else (if inWord then 0 else 1) + countWordsAux true rest

/-- Word count of a string (see `countWordsAux`). -/
def countWords (s : String) : Nat := countWordsAux false s.data

/-- Insert a digit-grouping comma every three digits, counting from the right:
helper for JS `Number.prototype.toLocaleString`. -/
def groupDigitsAux : Nat → List Char → List Char
  | _, [] => []
  | k, c :: rest =>
    if k % 3 = 0 ∧ k ≠ 0 then ',' :: c :: groupDigitsAux (k + 1) rest
    else c :: groupDigitsAux (k + 1) rest

/-- JS `n.toLocaleString()` for a non-negative integer (digit grouping with commas). -/
def intLocaleString (n : Int) : String :=
  if n < 0 then "-" ++ String.mk (groupDigitsAux 0 (Nat.repr n.toNat).data.reverse).reverse
  else String.mk ((groupDigitsAux 0 (toString n).data.reverse).reverse)

/-- JS `q.toFixed(d)`: decimal rendering of a rational with `d` digits after the
point, rounding half away from zero. -/
def ratToFixed (d : Nat) (q : ℚ) : String :=
  let scaled : Int := round (|q| * (10 : ℚ) ^ d)
  let ip : Nat := scaled.toNat / 10 ^ d
  let fp : Nat := scaled.toNat % 10 ^ d
  let fpDigits : String := String.mk (List.replicate (d - (toString fp).length) '0') ++ toString fp
  let body : String := if d = 0 then toString ip else toString ip ++ "." ++ fpDigits
  if q < 0 ∧ scaled ≠ 0 then "-" ++ body else body

/-- JS `lines.join('\n')`. -/
def joinNl (l : List String) : String := String.intercalate "\n" l

/-- JS `Array.prototype.slice(s, e)`: negative indices count from the end,
then both are clamped to `[0, length]`. -/
def jsSlice {α : Type} (l : List α) (s e : Int) : List α :=
  let len : Int := l.length
  let k : Int := if s < 0 then max (len + s) 0 else min s len
  let f : Int := if e < 0 then max (len + e) 0 else min e len
  (l.take f.toNat).drop k.toNat

/-! ## Data model (`src/types.ts`) -/

/-- One search result (`ExaSearchResult` in `src/types.ts`).  `publishedDate`,
`author` and `text` are plain strings in the TS interface (possibly empty,
which is falsy in JS); `image`, `favicon` and `score` are optional. -/
structure ExaSearchResult where
  id : String
  title : String
  url : String
  publishedDate : String
  author : String
  text : String
  image : Option String
  favicon : Option String
  score : Option ℚ
deriving DecidableEq

/-- Upstream search response (`ExaSearchResponse` in `src/types.ts`). -/
structure ExaSearchResponse where
  requestId : String
  autopromptString : Option String
  resolvedSearchType : Option String
  searchType : Option String
  results : List ExaSearchResult
deriving DecidableEq

/-- Cache entry metadata (the `metadata` field of `CachedSearchResult`). -/
structure CacheMetadata where
  requestId : String
  searchType : Option String
  autopromptString : Option String
deriving DecidableEq

/-- A cached result set (`CachedSearchResult` in `src/utils/resultCache.ts`). -/
structure CachedSearchResult where
  cacheId : String
  query : String
  timestamp : Int
  ttl : Int
  totalResults : Nat
  results : List ExaSearchResult
  metadata : CacheMetadata
deriving DecidableEq

/-- One file of the cache directory: its name (inside the directory), its
modification time, and its parsed content (`none` when `JSON.parse` would
throw). -/
structure FileEntry where
  name : String
  mtime : Int
  data : Option CachedSearchResult
deriving DecidableEq

/-- The cache directory, in directory-listing (`readdirSync`) order. -/
abbrev CacheFs := List FileEntry

/-- Requested rendering depth (`ContentLevel` in `src/utils/responseFormatter.ts`). -/
inductive ContentLevel where
  | summary
  | standard
  | full
deriving DecidableEq

/-! ## Token estimator (`src/utils/tokenEstimator.ts`) -/

/-- Result of `estimateTokens`. -/
structure TokenEstimate where
  characters : Nat
  estimatedTokens : Int
  words : Nat
deriving DecidableEq

/-- `estimateTokens(text)`: `characters / 4` base estimate with a 30% safety
margin, rounded up (`Math.ceil(baseTokens * 1.3)`). -/
def estimateTokens (text : String) : TokenEstimate :=
  let characters : Nat := text.length
  let words : Nat := countWords text
  let baseTokens : ℚ := (characters : ℚ) / 4
  let estimatedTokens : Int := ⌈baseTokens * (1.3 : ℚ)⌉
  { characters := characters, estimatedTokens := estimatedTokens, words := words }

/-- Result of `calculateCostEstimate`. -/
structure CostEstimate where
  inputTokens : Int
  estimatedCostUSD : ℚ
deriving DecidableEq

/-- Round a rational to `d` decimal digits — JS `parseFloat(x.toFixed(d))`. -/
def roundToDigits (d : Nat) (q : ℚ) : ℚ :=
  (round (q * (10 : ℚ) ^ d) : ℚ) / (10 : ℚ) ^ d

/-- `calculateCostEstimate(tokens)`: linear cost at $3 per million input tokens,
kept to six decimal digits. -/
def calculateCostEstimate (tokens : Int) : CostEstimate :=
  let costUSD : ℚ := (tokens : ℚ) / 1000000 * 3
  { inputTokens := tokens, estimatedCostUSD := roundToDigits 6 costUSD }

/-- Response metadata (`ResponseMetadata` in `src/utils/tokenEstimator.ts`). -/
structure ResponseMetadata where
  totalResults : Nat
  returnedResults : Nat
  tokenEstimate : TokenEstimate
  truncated : Bool
  hasMore : Bool
  contentLevel : ContentLevel
  costEstimate : CostEstimate
deriving DecidableEq

/-- `createResponseMetadata(text, totalResults, returnedResults, contentLevel, truncated)`. -/
def createResponseMetadata (text : String) (totalResults returnedResults : Nat)
    (contentLevel : ContentLevel) (truncated : Bool := false) : ResponseMetadata :=
  let tokenEstimate := estimateTokens text
  let costEstimate := calculateCostEstimate tokenEstimate.estimatedTokens
  { totalResults := totalResults
    returnedResults := returnedResults
    tokenEstimate := tokenEstimate
    truncated := truncated
    hasMore := decide (returnedResults < totalResults)
    contentLevel := contentLevel
    costEstimate := costEstimate }

/-- Upper-case name of a content level (`contentLevel.toUpperCase()`). -/
def contentLevelUpper : ContentLevel → String
  | .summary => "SUMMARY"
  | .standard => "STANDARD"
  | .full => "FULL"

/-- `formatMetadataForClaude(metadata)`. -/
def formatMetadataForClaude (m : ResponseMetadata) : String :=
  let lines : List String :=
    [ "## Response Metadata",
      "",
      "- Results: " ++ toString m.returnedResults ++ "/" ++ toString m.totalResults
        ++ " (" ++ (if m.hasMore then "more available" else "complete") ++ ")",
      "- Content Level: " ++ contentLevelUpper m.contentLevel,
      "- Token Estimate: ~" ++ intLocaleString m.tokenEstimate.estimatedTokens ++ " tokens",
      "- Characters: " ++ intLocaleString (m.tokenEstimate.characters : Int),
      "- Cost Estimate: ~$" ++ ratToFixed 4 m.costEstimate.estimatedCostUSD ++ " (input only)" ]
  let lines := lines ++
    (if m.truncated then ["- Warning: Content truncated to prevent token overflow"] else [])
  let lines := lines ++
    (if m.hasMore then ["- Tip: Request specific results by index for full content"] else [])
  let lines := lines ++ [""]
  joinNl lines

/-- `calculateMaxCharacters(numResults, targetTotalTokens, metadataOverhead)`:
the per-result character allowance of the `standard` tier.  The source divides
in floating point and applies `Math.floor` to the token quotient, then
multiplies by 4 and clamps to `[500, 5000]`. -/
def calculateMaxCharacters (numResults : Nat) (targetTotalTokens : Int := 20000)
    (metadataOverhead : Int := 1000) : Int :=
  let availableTokens : ℚ := (targetTotalTokens : ℚ) - (metadataOverhead : ℚ)
  let tokensPerResult : Int := ⌊availableTokens / (numResults : ℚ)⌋
  let charsPerResult : Int := tokensPerResult * 4
  max 500 (min charsPerResult 5000)

/-! ## Result cache (`src/utils/resultCache.ts`)

`ResultCacheManager` keeps one JSON file per cached search in a single cache
directory.  The directory is the `CacheFs` list; `Date.now()` and
`Math.random().toString(36).substring(2, 9)` are passed in explicitly as `now`
and `rand`.  Each operation returns, besides its result, the resulting
directory state and the list of file paths it accessed. -/

/-- `DEFAULT_TTL`: 5 minutes in milliseconds. -/
def DEFAULT_TTL : Int := 5 * 60 * 1000

/-- `MAX_CACHE_SIZE`: maximum number of cached searches. -/
def MAX_CACHE_SIZE : Nat := 100

/-- `generateCacheId()`: `` `exa-${Date.now()}-${random}` ``. -/
def generateCacheId (now : Int) (rand : String) : String :=
  "exa-" ++ toString now ++ "-" ++ rand

/-- `getCacheFilePath(cacheId)`: `path.join(this.cacheDir, cacheId + ".json")`,
with the directory prefix abstracted away (the name is still built from the
raw identifier). -/
def getCacheFilePath (cacheId : String) : String := cacheId ++ ".json"

/-- `fs.existsSync` / the read half of `fs.readFileSync`: first file with the
given name, in directory order. -/
def findFile (fs : CacheFs) (name : String) : Option FileEntry :=
  fs.find? (fun e => e.name == name)

/-- `fs.unlinkSync`: remove the file with the given name. -/
def removeFile (fs : CacheFs) (name : String) : CacheFs :=
  fs.eraseP (fun e => e.name == name)

/-- `fs.writeFileSync`: (over)write the file with the given name. -/
def writeFile (fs : CacheFs) (name : String) (mtime : Int)
    (data : CachedSearchResult) : CacheFs :=
  ⟨name, mtime, some data⟩ :: removeFile fs name

/-- `cacheResults(query, results, metadata, ttl)`: build the `CachedSearchResult`
record and persist it under the generated identifier; returns the identifier. -/
def cacheResults (fs : CacheFs) (now : Int) (rand : String) (query : String)
    (results : List ExaSearchResult) (metadata : CacheMetadata)
    (ttl : Int := DEFAULT_TTL) : String × CacheFs :=
  let cacheId := generateCacheId now rand
  let cached : CachedSearchResult :=
    { cacheId := cacheId
      query := query
      timestamp := now
      ttl := ttl
      totalResults := results.length
      results := results
      metadata := metadata }
  (cacheId, writeFile fs (getCacheFilePath cacheId) now cached)

/-- `deleteCached(cacheId)`: `existsSync` then `unlinkSync`.  Also returns the
accessed paths. -/
def deleteCached (fs : CacheFs) (cacheId : String) : CacheFs × List String :=
  let filePath := getCacheFilePath cacheId
  match findFile fs filePath with
  | some _ => (removeFile fs filePath, [filePath, filePath])
  | none => (fs, [filePath])

/-- `getCachedResults(cacheId)`: resolve the identifier to a file path with no
format validation, consult storage, return `null` when the file is missing,
unreadable, or expired (`Date.now() - cached.timestamp > cached.ttl`; the
expired entry is deleted on this access). -/
def getCachedResults (fs : CacheFs) (now : Int) (cacheId : String) :
    Option CachedSearchResult × CacheFs × List String :=
  let filePath := getCacheFilePath cacheId
  match findFile fs filePath with
  | none => (none, fs, [filePath])
  | some e =>
    match e.data with
    | none => (none, fs, [filePath, filePath])
    | some cached =>
      if now - cached.timestamp > cached.ttl then
        let d := deleteCached fs cacheId
        (none, d.1, [filePath, filePath] ++ d.2)
      else
        (some cached, fs, [filePath, filePath])

/-- `getResultByIndex(cacheId, index)`: `null` when the entry is missing/expired
or the index is out of `[0, length)`; otherwise the result at that index. -/
def getResultByIndex (fs : CacheFs) (now : Int) (cacheId : String) (index : Int) :
    Option ExaSearchResult × CacheFs × List String :=
  let r := getCachedResults fs now cacheId
  match r.1 with
  | none => (none, r.2.1, r.2.2)
  | some cached =>
    if index < 0 ∨ (cached.results.length : Int) ≤ index then (none, r.2.1, r.2.2)
    else (cached.results.get? index.toNat, r.2.1, r.2.2)

/-- `getResultRange(cacheId, startIndex, endIndex)`: `null` when the entry is
missing/expired; otherwise `results.slice(max(0, start), min(length, end))`. -/
def getResultRange (fs : CacheFs) (now : Int) (cacheId : String)
    (startIndex endIndex : Int) :
    Option (List ExaSearchResult) × CacheFs × List String :=
  let r := getCachedResults fs now cacheId
  match r.1 with
  | none => (none, r.2.1, r.2.2)
  | some cached =>
    let validStart : Int := max 0 startIndex
    let validEnd : Int := min (cached.results.length : Int) endIndex
    (some (jsSlice cached.results validStart validEnd), r.2.1, r.2.2)

/-- A cache file name: `f.startsWith('exa-') && f.endsWith('.json')`. -/
def isCacheFileName (s : String) : Bool :=
  strStartsWith s "exa-" && strEndsWith s ".json"

/-- Stable insertion into a list sorted ascending by `mtime` (the element goes
after all entries that are `≤` it, as JS's stable `Array.prototype.sort` with
comparator `a.mtime - b.mtime` would order them). -/
def insertByMtime (x : FileEntry) : List FileEntry → List FileEntry
  | [] => [x]
  | y :: ys => if y.mtime ≤ x.mtime then y :: insertByMtime x ys else x :: y :: ys

/-- Stable ascending sort by `mtime` (`filesWithStats.sort((a, b) => a.mtime - b.mtime)`). -/
def sortByMtime (l : List FileEntry) : List FileEntry :=
  l.foldl (fun acc x => insertByMtime x acc) []

/-- `cleanupOldCaches()`: list the cache files, sort them by modification time,
delete every expired or unparsable one; then re-list the directory and, if more
than `MAX_CACHE_SIZE` cache files remain, delete the first
`remaining.length - MAX_CACHE_SIZE` files of that (unsorted, directory-order)
listing. -/
def cleanupOldCaches (fs : CacheFs) (now : Int) : CacheFs :=
  let cacheFiles := fs.filter (fun e => isCacheFileName e.name)
  let filesWithStats := sortByMtime cacheFiles
  let fs1 := filesWithStats.foldl
    (fun acc f =>
      match f.data with
      | none => removeFile acc f.name
      | some cached =>
        if now - cached.timestamp > cached.ttl then removeFile acc f.name else acc)
    fs
  let remainingFiles := fs1.filter (fun e => isCacheFileName e.name)
  if remainingFiles.length > MAX_CACHE_SIZE then
    let toDelete := remainingFiles.length - MAX_CACHE_SIZE
    let oldestFiles := remainingFiles.take toDelete
    oldestFiles.foldl (fun acc f => removeFile acc f.name) fs1
  else fs1

/-- The observable actions of the `ResultCacheManager` constructor.  The class
has no timer field, no `destroy`/`stop` method, and no call to `setInterval`
anywhere; a periodic sweep would appear here as `schedulePeriodicCleanup`. -/
inductive CacheCtorAction where
  | ensureCacheDir
  | runCleanup
  | schedulePeriodicCleanup (intervalMs : Int)
deriving DecidableEq

/-- The constructor body of `ResultCacheManager`: `this.ensureCacheDir();
this.cleanupOldCaches();` — and nothing else. -/
def resultCacheCtorActions : List CacheCtorAction :=
  [CacheCtorAction.ensureCacheDir, CacheCtorAction.runCleanup]

/-! ## Response formatter (`src/utils/responseFormatter.ts`) -/

/-- `result.score?.toFixed(2) || 'N/A'` (a rendered score string is non-empty,
hence truthy). -/
def scoreDisplay (score : Option ℚ) : String :=
  match score with
  | none => "N/A"
  | some q => ratToFixed 2 q

/-- `createResultSummary(result, index)`. -/
def createResultSummary (result : ExaSearchResult) (index : Int) : String :=
  let preview :=
    if result.text ≠ "" then trimStr (jsSubstring result.text 200) ++ "..."
    else "No preview available"
  joinNl
    [ "[" ++ toString index ++ "] " ++ result.title,
      "URL: " ++ result.url,
      "Published: " ++ jsOrStr result.publishedDate "Unknown",
      "Preview: " ++ preview,
      "Score: " ++ scoreDisplay result.score,
      "" ]

/-- The truncated body of a `standard`-tier result: the first `maxChars`
characters, trimmed, with a three-character ellipsis marker when the body was
longer than `maxChars`. -/
def standardContentPreview (result : ExaSearchResult) (maxChars : Int) : String :=
  if result.text ≠ "" then
    trimStr (jsSubstring result.text maxChars) ++
      (if maxChars < (result.text.length : Int) then "..." else "")
  else "No content available"

/-- `createResultStandard(result, index, maxChars)`. -/
def createResultStandard (result : ExaSearchResult) (index : Int)
    (maxChars : Int := 1500) : String :=
  joinNl
    [ "### Result " ++ toString index ++ ": " ++ result.title ++ "\n",
      "**URL**: " ++ result.url,
      "**Published**: " ++ jsOrStr result.publishedDate "Unknown",
      "**Author**: " ++ jsOrStr result.author "Unknown",
      "**Score**: " ++ scoreDisplay result.score ++ "\n",
      "**Content**:\n" ++ standardContentPreview result maxChars ++ "\n" ]

/-- `createResultFull(result, index)`. -/
def createResultFull (result : ExaSearchResult) (index : Int) : String :=
  let lines : List String :=
    [ "### Result " ++ toString index ++ ": " ++ result.title ++ "\n",
      "**ID**: " ++ result.id,
      "**URL**: " ++ result.url,
      "**Published**: " ++ jsOrStr result.publishedDate "Unknown",
      "**Author**: " ++ jsOrStr result.author "Unknown",
      "**Score**: " ++ scoreDisplay result.score ]
  let lines := lines ++
    (if jsTruthyOpt result.image then ["**Image**: " ++ result.image.getD ""] else [])
  let lines := lines ++
    (if jsTruthyOpt result.favicon then ["**Favicon**: " ++ result.favicon.getD ""] else [])
  let lines := lines ++ ["", "**Full Content**:\n", jsOrStr result.text "No content available", ""]
  joinNl lines

/-- The value returned by `formatSearchResponse` (`FormattedResponse`), with
its `metadata` object flattened into the record. -/
structure FormattedResponse where
  text : String
  cacheId : Option String
  totalTokens : Int
  resultCount : Nat
  contentLevel : ContentLevel
deriving DecidableEq

/-- `formatSearchResponse(response, query, contentLevel, maxTotalTokens)`:
empty result sets get a fixed payload and no cache write; otherwise the result
set is cached (side effect on the directory state), rendered at the requested
tier — only the `standard` tier consults `maxTotalTokens`, via
`calculateMaxCharacters` — and wrapped in a metadata header and cache-usage
instructions. -/
def formatSearchResponse (fs : CacheFs) (now : Int) (rand : String)
    (response : ExaSearchResponse) (query : String)
    (contentLevel : ContentLevel := .standard) (maxTotalTokens : Int := 20000) :
    FormattedResponse × CacheFs :=
  let results := response.results
  if results.length = 0 then
    ({ text := "No results found for your query."
       cacheId := none
       totalTokens := 10
       resultCount := 0
       contentLevel := contentLevel }, fs)
  else
    let stored := cacheResults fs now rand query results
      { requestId := response.requestId
        searchType := jsOrOpt response.resolvedSearchType response.searchType
        autopromptString := response.autopromptString }
    let cacheId := stored.1
    let formattedText :=
      match contentLevel with
      | .summary =>
        joinNl (results.mapIdx (fun i r => createResultSummary r (i : Int)))
      | .standard =>
        let maxCharsPerResult := calculateMaxCharacters results.length maxTotalTokens
        joinNl (results.mapIdx (fun i r => createResultStandard r (i : Int) maxCharsPerResult))
      | .full =>
        joinNl (results.mapIdx (fun i r => createResultFull r (i : Int)))
    let metadata := createResponseMetadata formattedText results.length results.length contentLevel
    let metadataHeader := formatMetadataForClaude metadata
    let cacheInstructions : List String :=
      [ "**Cache ID**: `" ++ cacheId ++ "`\n",
        "**Progressive Disclosure**",
        "- Use cache ID + result index [0-" ++ toString (results.length - 1)
          ++ "] with retrieve_result tool",
        "- Cache expires in 5 minutes",
        "- Current response: ~" ++ intLocaleString metadata.tokenEstimate.estimatedTokens
          ++ " tokens\n",
        "---\n" ]
    let fullText := joinNl [metadataHeader, joinNl cacheInstructions, formattedText]
    let finalTokens := (estimateTokens fullText).estimatedTokens
    ({ text := fullText
       cacheId := some cacheId
       totalTokens := finalTokens
       resultCount := results.length
       contentLevel := contentLevel }, stored.2)

/-- `formatSingleResult(result, index, cacheId, totalResults)`. -/
def formatSingleResult (result : ExaSearchResult) (index : Int) (cacheId : String)
    (totalResults : Nat) : String :=
  let fullResult := createResultFull result index
  let header := joinNl
    [ "## Retrieved from Cache\n",
      "**Cache ID**: `" ++ cacheId ++ "`",
      "**Result**: " ++ toString (index + 1) ++ " of " ++ toString totalResults ++ "\n",
      "---\n" ]
  header ++ fullResult

/-! ## `retrieve_result` tool handler (`src/tools/webSearch.ts`) -/

/-- The regular expression `^exa-\d+-[a-z0-9]+$` (`CACHE_ID_REGEX`), decided
directly: the prefix `exa-`, one or more digits, a dash, one or more lowercase
alphanumerics.  Because neither `\d` nor `[a-z0-9]` matches `-`, the regex
match is equivalent to this first-fit decomposition. -/
def validCacheId (s : String) : Bool :=
  match s.data with
  | 'e' :: 'x' :: 'a' :: '-' :: rest =>
    let digits := rest.takeWhile Char.isDigit
    let afterDigits := rest.dropWhile Char.isDigit
    decide (digits ≠ []) &&
      (match afterDigits with
       | '-' :: tail => decide (tail ≠ []) && tail.all (fun c => c.isDigit || (decide ('a' ≤ c) && decide (c ≤ 'z')))
       | _ => false)
  | _ => false

/-- Outcome of one `retrieve_result` tool call.  The three error constructors
mirror the three `isError: true` responses of the handler, each with its
message text. -/
inductive RetrieveOutcome where
  | invalidFormat (msg : String)
  | notFoundOrExpired (msg : String)
  | invalidIndex (msg : String)
  | ok (text : String)
deriving DecidableEq

/-- The fixed invalid-format message of the handler. -/
def invalidFormatMessage : String :=
  "Invalid cache ID format. Expected format: exa-\x7btimestamp\x7d-\x7brandom\x7d\n\nExample: exa-1699564234-abc123"

/-- The `retrieve_result` handler: validate `cache_id` against `CACHE_ID_REGEX`
before any cache access, then `getCachedResults`, then `getResultByIndex`, and
render the single result on success.  Returns the outcome, the resulting
directory state, and every storage path accessed. -/
def retrieveResult (fs : CacheFs) (now : Int) (cacheId : String) (resultIndex : Int) :
    RetrieveOutcome × CacheFs × List String :=
  if validCacheId cacheId then
    let r1 := getCachedResults fs now cacheId
    match r1.1 with
    | none =>
      (RetrieveOutcome.notFoundOrExpired
        ("Cache not found or expired: " ++ cacheId
          ++ "\n\nCaches expire after 5 minutes. Please run web_search again."),
        r1.2.1, r1.2.2)
    | some cached =>
      let r2 := getResultByIndex r1.2.1 now cacheId resultIndex
      match r2.1 with
      | none =>
        (RetrieveOutcome.invalidIndex
          ("Invalid result index: " ++ toString resultIndex
            ++ "\n\nValid range: 0-" ++ toString ((cached.totalResults : Int) - 1)),
          r2.2.1, r1.2.2 ++ r2.2.2)
      | some result =>
        (RetrieveOutcome.ok (formatSingleResult result resultIndex cacheId cached.totalResults),
          r2.2.1, r1.2.2 ++ r2.2.2)
  else
    (RetrieveOutcome.invalidFormat invalidFormatMessage, fs, [])

/-! ## The spec's version of the `standard`-tier character allowance

The spec states the allowance as
`clamp(floor(((maxTotalTokenBudget - metadataOverhead) / resultCount) * 4), 500, 5000)`
— the floor applied *after* multiplying the token quotient by 4.  The source
applies `Math.floor` to the token quotient first and then multiplies by 4.
This definition follows the spec's words, for comparison with
`calculateMaxCharacters`. -/

/-- Modelled from the spec: the per-result character allowance as the spec
writes it, `clamp(floor(((B - 1000) / n) * 4), 500, 5000)`. -/
def specCharsPerResult (numResults : Nat) (targetTotalTokens : Int) : Int :=
  max 500 (min ⌊(((targetTotalTokens : ℚ) - 1000) / (numResults : ℚ)) * 4⌋ 5000)

/-! ## Concrete demonstration data -/

/-- Minimal cache metadata for concrete instances. -/
def demoMeta : CacheMetadata :=
  { requestId := "r", searchType := none, autopromptString := none }

/-- A concrete search result. -/
def demoResult : ExaSearchResult :=
  { id := "doc1", title := "Title", url := "https://a.example", publishedDate := "2025-01-01",
    author := "A", text := "body text", image := none, favicon := none, score := none }

/-- An empty cached result set created at time `ts`, with a long TTL. -/
def demoContent (ts : Int) (cid : String) : CachedSearchResult :=
  { cacheId := cid, query := "q", timestamp := ts, ttl := 1000000,
    totalResults := 0, results := [], metadata := demoMeta }

/-- A cache directory whose listing order puts the *newest* entry first:
one entry created at time 9999 followed by 100 entries created at times
1..100.  None is expired at time `demoNow`. -/
def demoDir : CacheFs :=
  ⟨"exa-9999-z.json", 9999, some (demoContent 9999 "exa-9999-z")⟩ ::
    (List.range 100).map (fun i =>
      ⟨"exa-" ++ toString (i + 1) ++ "-a.json", (i : Int) + 1,
        some (demoContent ((i : Int) + 1) ("exa-" ++ toString (i + 1) ++ "-a"))⟩)

/-- The observation time for `demoDir`: every entry is 10000 − ts < 10^6 old,
hence unexpired. -/
def demoNow : Int := 10000

/-- A one-entry cache directory: the set `exa-5-a`, created at time 5 with
TTL 10. -/
def demoFs1 : CacheFs := [⟨"exa-5-a.json", 5, some (demoContent 5 "exa-5-a")⟩]

/-- A two-result cached set under `exa-1-abc`, created at time 1. -/
def demoCached2 : CachedSearchResult :=
  { cacheId := "exa-1-abc", query := "q", timestamp := 1, ttl := 1000000,
    totalResults := 2, results := [demoResult, demoResult], metadata := demoMeta }

/-- A one-entry cache directory holding `demoCached2`. -/
def demoFs2 : CacheFs := [⟨"exa-1-abc.json", 1, some demoCached2⟩]

/-! ## Shared helper lemmas -/

/-- Floor of an integer divided by a natural, in ℚ, is integer (Euclidean)
division. -/
theorem ratFloor_intCast_div_natCast (a : Int) (n : Nat) :
    ⌊(a : ℚ) / (n : ℚ)⌋ = a / (n : Int) := by
  have h := Rat.floor_intCast_div_natCast a n
  push_cast at h
  exact_mod_cast h

/-- Trimming never lengthens a character list. -/
theorem trimChars_length_le (l : List Char) : (trimChars l).length ≤ l.length := by
  unfold trimChars
  have h1 : ((l.dropWhile Char.isWhitespace).reverse.dropWhile Char.isWhitespace).length
      ≤ (l.dropWhile Char.isWhitespace).reverse.length :=
    (List.dropWhile_sublist _).length_le
  have h2 : (l.dropWhile Char.isWhitespace).length ≤ l.length :=
    (List.dropWhile_sublist _).length_le
  simp only [List.length_reverse] at h1 ⊢
  omega

/-- Length of `String.mk`. -/
theorem length_stringMk (l : List Char) : (String.mk l).length = l.length := rfl

/-- Length of a trimmed substring prefix. -/
theorem trimStr_jsSubstring_length_le (s : String) (n : Int) :
    (trimStr (jsSubstring s n)).length ≤ n.toNat := by
  unfold trimStr jsSubstring
  rw [length_stringMk]
  refine le_trans (trimChars_length_le _) ?_
  simp [List.length_take]

/-- Closed form of `calculateMaxCharacters`: the ℚ-floor of the token quotient
is integer division. -/
theorem calculateMaxCharacters_fdiv (m : Nat) (C : Int) :
    calculateMaxCharacters m C 1000 = max 500 (min (((C - 1000) / (m : Int)) * 4) 5000) := by
  simp only [calculateMaxCharacters]
  have hcast : ((C : ℚ) - ((1000 : Int) : ℚ)) = (((C - 1000 : Int)) : ℚ) := by
    push_cast; ring
  rw [hcast, ratFloor_intCast_div_natCast (C - 1000) m]

/-! ## Claims -/

/-- Claim C5: for every input text the token estimator returns
`ceil(characterCount / 4 * 1.3)`, and the estimate never falls below the base
`characterCount / 4` heuristic. -/
theorem estimateTokens_formula_and_never_underestimates (s : String) :
    (estimateTokens s).estimatedTokens = ⌈((s.length : ℚ) / 4) * (1.3 : ℚ)⌉
    ∧ ((s.length : ℚ) / 4) ≤ (((estimateTokens s).estimatedTokens : Int) : ℚ) := by
  refine ⟨rfl, ?_⟩
  show ((s.length : ℚ) / 4) ≤ ((⌈((s.length : ℚ) / 4) * (1.3 : ℚ)⌉ : Int) : ℚ)
  refine le_trans ?_ (Int.le_ceil _)
  have h0 : (0 : ℚ) ≤ (s.length : ℚ) / 4 := by positivity
  nlinarith

/-- Claim C9: rendering an empty result list returns the fixed "no results"
payload and leaves the cache directory untouched — no entry is written. -/
theorem formatSearchResponse_empty_is_fixed_and_writes_nothing
    (fs : CacheFs) (now : Int) (rand : String) (reqId : String)
    (auto resolved st : Option String) (query : String)
    (lvl : ContentLevel) (maxT : Int) :
    formatSearchResponse fs now rand ⟨reqId, auto, resolved, st, []⟩ query lvl maxT
      = ({ text := "No results found for your query.", cacheId := none,
           totalTokens := 10, resultCount := 0, contentLevel := lvl }, fs) := rfl

/-- Claim C10: for the `summary` and `full` tiers, the output of
`formatSearchResponse` (rendered text, metadata and cache side effect) does
not depend on the `maxTotalTokens` budget: two calls differing only in the
budget coincide.  Only the `standard` tier consults the budget. -/
theorem formatSearchResponse_budget_independent_summary_full
    (fs : CacheFs) (now : Int) (rand : String) (response : ExaSearchResponse)
    (query : String) (t1 t2 : Int) :
    (formatSearchResponse fs now rand response query .summary t1
       = formatSearchResponse fs now rand response query .summary t2)
    ∧ (formatSearchResponse fs now rand response query .full t1
       = formatSearchResponse fs now rand response query .full t2) :=
  ⟨rfl, rfl⟩

/-- Claim C3 (the code differs): the `ResultCacheManager` constructor performs
exactly one `ensureCacheDir` and one immediate `cleanupOldCaches` call and
schedules no periodic sweep — there is no recurring timer whose interval could
be cancelled on shutdown. -/
theorem resultCacheCtor_sweeps_once_and_schedules_nothing :
    resultCacheCtorActions = [CacheCtorAction.ensureCacheDir, CacheCtorAction.runCleanup]
    ∧ ∀ i : Int, CacheCtorAction.schedulePeriodicCleanup i ∉ resultCacheCtorActions := by
  refine ⟨rfl, ?_⟩
  intro i h
  simp [resultCacheCtorActions] at h

/-- Claim C6, counterexample: with a token budget of 2001 and 2 results the
source computes `floor(1001 / 2) * 4 = 2000` characters per result while the
spec's formula `floor((1001 / 2) * 4)` gives 2002; both values survive the
`[500, 5000]` clamp, so the claimed equation fails at this input. -/
theorem calculateMaxCharacters_differs_from_spec_formula :
    calculateMaxCharacters 2 2001 1000 = 2000
    ∧ specCharsPerResult 2 2001 = 2002
    ∧ calculateMaxCharacters 2 2001 1000 ≠ specCharsPerResult 2 2001 := by
  have h1 : calculateMaxCharacters 2 2001 1000 = 2000 := by
    rw [calculateMaxCharacters_fdiv 2 2001]
    decide
  have h2 : specCharsPerResult 2 2001 = 2002 := by
    have hval : (((2001 : Int) : ℚ) - 1000) / ((2 : Nat) : ℚ) * 4 = ((2002 : Int) : ℚ) := by
      push_cast; norm_num
    simp only [specCharsPerResult]
    rw [hval, Int.floor_intCast]
    decide
  exact ⟨h1, h2, by rw [h1, h2]; decide⟩

/-- Claim C6, amended: the allowance equals
`clamp(floor((B - 1000) / n) * 4, 500, 5000)` (the floor taken on the token
quotient *before* multiplying by 4); at budget 20000 with 10 results it is
5000; the allowance is never below 500; and the rendered `standard` body text
is at most the allowance plus the three-character ellipsis marker. -/
theorem calculateMaxCharacters_closed_form_and_preview_bound
    (n : Nat) (B : Int) (r : ExaSearchResult) (h : 0 < n) :
    calculateMaxCharacters n B 1000 = max 500 (min (((B - 1000) / (n : Int)) * 4) 5000)
    ∧ calculateMaxCharacters 10 20000 1000 = 5000
    ∧ 500 ≤ calculateMaxCharacters n B 1000
    ∧ (standardContentPreview r (calculateMaxCharacters n B 1000)).length
        ≤ (calculateMaxCharacters n B 1000).toNat + 3 := by
  have h500 : 500 ≤ calculateMaxCharacters n B 1000 := by
    rw [calculateMaxCharacters_fdiv n B]; exact le_max_left _ _
  refine ⟨calculateMaxCharacters_fdiv n B, ?_, h500, ?_⟩
  · rw [calculateMaxCharacters_fdiv 10 20000]; decide
  · set mc := calculateMaxCharacters n B 1000 with hmc
    unfold standardContentPreview
    by_cases ht : r.text ≠ ""
    · rw [if_pos ht]
      rw [String.length_append]
      have hbody : (trimStr (jsSubstring r.text mc)).length ≤ mc.toNat :=
        trimStr_jsSubstring_length_le r.text mc
      have hsuffix : (if mc < (r.text.length : Int) then "..." else "").length ≤ 3 := by
        split <;> decide
      omega
    · rw [if_neg ht]
      have h20 : ("No content available" : String).length = 20 := by decide
      have : (500 : Int).toNat ≤ mc.toNat := Int.toNat_le_toNat h500
      simp only [Int.toNat_ofNat] at this
      omega

/-- Claim C6, witness for `calculateMaxCharacters_closed_form_and_preview_bound`
at 10 results, budget 20000, on `demoResult`. -/
theorem calculateMaxCharacters_closed_form_witness :
    0 < 10
    ∧ (calculateMaxCharacters 10 20000 1000
          = max 500 (min (((20000 - 1000) / (10 : Int)) * 4) 5000)
        ∧ calculateMaxCharacters 10 20000 1000 = 5000
        ∧ 500 ≤ calculateMaxCharacters 10 20000 1000
        ∧ (standardContentPreview demoResult (calculateMaxCharacters 10 20000 1000)).length
            ≤ (calculateMaxCharacters 10 20000 1000).toNat + 3) :=
  ⟨by decide,
    calculateMaxCharacters_closed_form_and_preview_bound 10 20000 demoResult (by decide)⟩

/-- Claim C1, counterexample: `getCachedResults` (and `getResultByIndex`, which
calls it) performs no identifier validation — called with the path-traversal
identifier `../../etc/passwd` it consults storage at a path built directly
from the identifier and returns plain `null`, not a distinct invalid-identifier
failure. -/
theorem getCachedResults_touches_storage_on_invalid_id :
    validCacheId "../../etc/passwd" = false
    ∧ (getCachedResults [] 0 "../../etc/passwd").2.2 = ["../../etc/passwd.json"]
    ∧ (getCachedResults [] 0 "../../etc/passwd").1 = none
    ∧ (getResultByIndex [] 0 "../../etc/passwd" 0).2.2 = ["../../etc/passwd.json"] := by
  decide

/-- The storage trace of a lookup always begins with the file path constructed
from the raw identifier. -/
theorem getCachedResults_first_access (fs : CacheFs) (now : Int) (id : String) :
    (getCachedResults fs now id).2.2.head? = some (getCacheFilePath id) := by
  unfold getCachedResults
  cases hf : findFile fs (getCacheFilePath id) with
  | none => simp [hf]
  | some e =>
    cases hd : e.data with
    | none => simp [hf, hd]
    | some cached =>
      by_cases hexp : now - cached.timestamp > cached.ttl
      · simp [hf, hd, hexp]
      · simp [hf, hd, hexp]

/-- `getResultByIndex` accesses exactly what its `getCachedResults` call
accesses. -/
theorem getResultByIndex_accesses (fs : CacheFs) (now : Int) (id : String) (idx : Int) :
    (getResultByIndex fs now id idx).2.2 = (getCachedResults fs now id).2.2 := by
  unfold getResultByIndex
  cases h : (getCachedResults fs now id).1 with
  | none => simp [h]
  | some cached =>
    by_cases hb : idx < 0 ∨ (cached.results.length : Int) ≤ idx <;> simp [h, hb]

/-- Claim C1, amended: only the `retrieve_result` tool handler validates the
identifier — any identifier failing `^exa-\d+-[a-z0-9]+$` is rejected there
with the distinct invalid-format error before any storage access; the
cache-level operations `getCachedResults`/`getResultByIndex` perform no
validation, resolve the raw identifier to a storage path and consult storage,
reporting failure as plain `null` (indistinguishable from a cache miss). -/
theorem retrieveResult_validates_but_cache_ops_do_not
    (fs : CacheFs) (now : Int) (id : String) (idx : Int)
    (h : validCacheId id = false) :
    retrieveResult fs now id idx = (RetrieveOutcome.invalidFormat invalidFormatMessage, fs, [])
    ∧ (getCachedResults fs now id).2.2.head? = some (getCacheFilePath id)
    ∧ (getResultByIndex fs now id idx).2.2.head? = some (getCacheFilePath id)
    ∧ getCacheFilePath id = id ++ ".json" := by
  refine ⟨?_, getCachedResults_first_access fs now id, ?_, rfl⟩
  · unfold retrieveResult
    rw [h]
    rfl
  · rw [getResultByIndex_accesses fs now id idx]
    exact getCachedResults_first_access fs now id

/-- Claim C1, witness for `retrieveResult_validates_but_cache_ops_do_not`
at the malformed identifier `exa_bad` on the empty directory. -/
theorem retrieveResult_validates_witness :
    validCacheId "exa_bad" = false
    ∧ (retrieveResult [] 0 "exa_bad" 0
          = (RetrieveOutcome.invalidFormat invalidFormatMessage, [], [])
        ∧ (getCachedResults [] 0 "exa_bad").2.2.head? = some (getCacheFilePath "exa_bad")
        ∧ (getResultByIndex [] 0 "exa_bad" 0).2.2.head? = some (getCacheFilePath "exa_bad")
        ∧ getCacheFilePath "exa_bad" = "exa_bad" ++ ".json") :=
  ⟨by decide, retrieveResult_validates_but_cache_ops_do_not [] 0 "exa_bad" 0 (by decide)⟩

/-- Claim C2 (the code differs): on a directory of 101 unexpired cache entries
whose listing order starts with the newest entry (creation time 9999, all
others 1..100), one `cleanupOldCaches` call does leave exactly 100 entries —
but it deletes the *first* entry of the unsorted directory listing, which here
is the newest one, while strictly older entries survive. -/
theorem cleanupOldCaches_deletes_listing_order_not_oldest :
    demoDir.length = 101
    ∧ demoDir.all (fun e =>
        match e.data with
        | some c => decide (demoNow - c.timestamp ≤ c.ttl)
        | none => false) = true
    ∧ cleanupOldCaches demoDir demoNow = demoDir.drop 1
    ∧ (cleanupOldCaches demoDir demoNow).length = 100
    ∧ demoDir.head?.map (fun e => e.mtime) = some 9999
    ∧ (demoDir.head?.map (fun e => e.name)).all
        (fun nm => (cleanupOldCaches demoDir demoNow).all (fun e => e.name ≠ nm)) = true
    ∧ (cleanupOldCaches demoDir demoNow).any (fun e =>
        match e.data with
        | some c => decide (c.timestamp < 9999)
        | none => false) = true := by
  decide

/-- Claim C4: lazy expiry of `getCachedResults`.  For an entry present on
disk: a lookup strictly after `timestamp + ttl` returns `null` and deletes the
file as a side effect of the access; a lookup at or before `timestamp + ttl`
returns the stored set and leaves the directory unchanged. -/
theorem getCachedResults_lazy_expiry
    (fs : CacheFs) (now : Int) (id : String) (e : FileEntry) (c : CachedSearchResult)
    (hfind : findFile fs (getCacheFilePath id) = some e) (hdata : e.data = some c) :
    (c.ttl < now - c.timestamp →
      getCachedResults fs now id
        = (none, removeFile fs (getCacheFilePath id),
            [getCacheFilePath id, getCacheFilePath id, getCacheFilePath id,
             getCacheFilePath id]))
    ∧ (now - c.timestamp ≤ c.ttl →
      getCachedResults fs now id
        = (some c, fs, [getCacheFilePath id, getCacheFilePath id])) := by
  constructor
  · intro hexp
    have hgt : now - c.timestamp > c.ttl := hexp
    unfold getCachedResults deleteCached
    simp [hfind, hdata, hgt]
  · intro hle
    have hngt : ¬ (now - c.timestamp > c.ttl) := by omega
    unfold getCachedResults
    simp [hfind, hdata, hngt]

/-- Claim C4, witness for `getCachedResults_lazy_expiry` on `demoFs1`
(entry created at 5 with TTL 1000000): expired at time 2000000, fresh at
time 7. -/
theorem getCachedResults_lazy_expiry_witness :
    findFile demoFs1 (getCacheFilePath "exa-5-a")
        = some ⟨"exa-5-a.json", 5, some (demoContent 5 "exa-5-a")⟩
    ∧ ((demoContent 5 "exa-5-a").ttl < 2000000 - (demoContent 5 "exa-5-a").timestamp
        ∧ getCachedResults demoFs1 2000000 "exa-5-a"
            = (none, removeFile demoFs1 (getCacheFilePath "exa-5-a"),
                [getCacheFilePath "exa-5-a", getCacheFilePath "exa-5-a",
                 getCacheFilePath "exa-5-a", getCacheFilePath "exa-5-a"]))
    ∧ (7 - (demoContent 5 "exa-5-a").timestamp ≤ (demoContent 5 "exa-5-a").ttl
        ∧ getCachedResults demoFs1 7 "exa-5-a"
            = (some (demoContent 5 "exa-5-a"), demoFs1,
                [getCacheFilePath "exa-5-a", getCacheFilePath "exa-5-a"])) := by
  have hexpired := (getCachedResults_lazy_expiry demoFs1 2000000 "exa-5-a"
    ⟨"exa-5-a.json", 5, some (demoContent 5 "exa-5-a")⟩ (demoContent 5 "exa-5-a")
    (by decide) rfl).1 (by decide)
  have hfresh := (getCachedResults_lazy_expiry demoFs1 7 "exa-5-a"
    ⟨"exa-5-a.json", 5, some (demoContent 5 "exa-5-a")⟩ (demoContent 5 "exa-5-a")
    (by decide) rfl).2 (by decide)
  exact ⟨by decide, ⟨by decide, hexpired⟩, ⟨by decide, hfresh⟩⟩

/-- A successful lookup turns `getResultByIndex` at any in-range index into
plain list indexing. -/
theorem getResultByIndex_of_lookup (fs : CacheFs) (now : Int) (id : String)
    (c : CachedSearchResult) (hc : (getCachedResults fs now id).1 = some c)
    (i : Nat) (r : ExaSearchResult) (hr : c.results.get? i = some r) :
    (getResultByIndex fs now id ((i : Nat) : Int)).1 = some r := by
  have hi : i < c.results.length := by
    rcases List.get?_eq_some.mp hr with ⟨hlt, _⟩
    exact hlt
  have hb1 : ¬ (((i : Nat) : Int) < 0) := by omega
  have hb2 : ¬ (c.results.length ≤ i) := by omega
  have htn : (((i : Nat) : Int)).toNat = i := by omega
  have hr' : c.results[i]? = some r := by
    rw [← List.get?_eq_getElem?]
    exact hr
  unfold getResultByIndex
  simp [hc, hb1, hb2, htn, hr']

/-- Claim C7: round-trip through the cache.  Storing a result set and looking
it up at the same instant (with any non-negative TTL) returns the stored
`CachedSearchResult` with the results in their original order, and retrieving
any valid index returns exactly the result at that position. -/
theorem cacheResults_roundtrip
    (fs : CacheFs) (now : Int) (rand : String) (query : String)
    (results : List ExaSearchResult) (meta : CacheMetadata) (ttl : Int)
    (h : 0 ≤ ttl) :
    (getCachedResults (cacheResults fs now rand query results meta ttl).2 now
        (cacheResults fs now rand query results meta ttl).1).1
      = some { cacheId := generateCacheId now rand, query := query, timestamp := now,
               ttl := ttl, totalResults := results.length, results := results,
               metadata := meta }
    ∧ ∀ (i : Nat) (r : ExaSearchResult), results.get? i = some r →
        (getResultByIndex (cacheResults fs now rand query results meta ttl).2 now
            (cacheResults fs now rand query results meta ttl).1 ((i : Nat) : Int)).1
          = some r := by
  set cid := generateCacheId now rand with hcid
  set cachedRec : CachedSearchResult :=
    { cacheId := cid, query := query, timestamp := now, ttl := ttl,
      totalResults := results.length, results := results, metadata := meta } with hrec
  have hpair : cacheResults fs now rand query results meta ttl
      = (cid, ⟨getCacheFilePath cid, now, some cachedRec⟩ :: removeFile fs (getCacheFilePath cid)) := by
    simp [cacheResults, writeFile, hcid, hrec]
  have hfind : findFile
      ((⟨getCacheFilePath cid, now, some cachedRec⟩ : FileEntry) :: removeFile fs (getCacheFilePath cid))
      (getCacheFilePath cid)
      = some ⟨getCacheFilePath cid, now, some cachedRec⟩ := by
    unfold findFile
    exact List.find?_cons_of_pos _ (by simp)
  have hlookup : (getCachedResults (cacheResults fs now rand query results meta ttl).2 now
      (cacheResults fs now rand query results meta ttl).1).1 = some cachedRec := by
    rw [hpair]
    unfold getCachedResults
    have hnlt : ¬ (ttl < (0 : Int)) := by omega
    simp [hfind, hnlt]
  exact ⟨hlookup, fun i r hr =>
    getResultByIndex_of_lookup _ _ _ cachedRec hlookup i r hr⟩

/-- Claim C7, witness for `cacheResults_roundtrip`: store `[demoResult]` at
time 1 with the default TTL and read it back. -/
theorem cacheResults_roundtrip_witness :
    (0 : Int) ≤ DEFAULT_TTL
    ∧ ((getCachedResults (cacheResults [] 1 "abc" "q" [demoResult] demoMeta DEFAULT_TTL).2 1
          (cacheResults [] 1 "abc" "q" [demoResult] demoMeta DEFAULT_TTL).1).1
        = some { cacheId := generateCacheId 1 "abc", query := "q", timestamp := 1,
                 ttl := DEFAULT_TTL, totalResults := [demoResult].length,
                 results := [demoResult], metadata := demoMeta }
      ∧ (getResultByIndex (cacheResults [] 1 "abc" "q" [demoResult] demoMeta DEFAULT_TTL).2 1
            (cacheResults [] 1 "abc" "q" [demoResult] demoMeta DEFAULT_TTL).1
            (((0 : Nat) : Int))).1
          = some demoResult) := by
  have h := cacheResults_roundtrip [] 1 "abc" "q" [demoResult] demoMeta DEFAULT_TTL (by decide)
  exact ⟨by decide, h.1, h.2 0 demoResult rfl⟩

/-- Claim C8, counterexample: `getResultRange` *does* fail for an identifier
with no cache entry — it returns `null` rather than any (even empty)
sequence. -/
theorem getResultRange_fails_on_missing_entry :
    (getResultRange [] 0 "exa-1-a" 0 1).1 = none := by decide

/-- Claim C8, amended: for a present, unexpired entry `getResultRange` never
fails: for all integer bounds it returns
`results.slice(max(0, start), min(length, end))` (JS slice semantics, so a
negative `end` counts from the end of the list), and whenever `end` is
non-negative and the clamped range is degenerate the result is the empty
sequence.  For a missing or expired entry it returns `null`. -/
theorem getResultRange_present_never_fails
    (fs : CacheFs) (now : Int) (id : String) (c : CachedSearchResult)
    (h : (getCachedResults fs now id).1 = some c) (s e : Int) :
    (getResultRange fs now id s e).1
        = some (jsSlice c.results (max 0 s) (min (c.results.length : Int) e))
    ∧ (0 ≤ e → min (c.results.length : Int) e ≤ max 0 s →
        (getResultRange fs now id s e).1 = some []) := by
  have h1 : (getResultRange fs now id s e).1
      = some (jsSlice c.results (max 0 s) (min (c.results.length : Int) e)) := by
    unfold getResultRange
    simp [h]
  refine ⟨h1, ?_⟩
  intro he hdeg
  rw [h1]
  have hnil : jsSlice c.results (max 0 s) (min (c.results.length : Int) e) = [] := by
    unfold jsSlice
    set len : Int := (c.results.length : Int) with hlen
    have hs' : ¬ ((max 0 s) < 0) := by omega
    have he' : ¬ ((min len e) < 0) := by
      have : (0 : Int) ≤ len := by simp [hlen]
      omega
    simp only [if_neg hs', if_neg he']
    apply List.drop_eq_nil_of_le
    have htake : (c.results.take (min (min len e) len).toNat).length
        = min (min (min len e) len).toNat c.results.length := by
      simp [List.length_take]
    have hmono : (min (min len e) len).toNat ≤ (min (max 0 s) len).toNat := by
      have hle : min (min len e) len ≤ min (max 0 s) len := by omega
      exact Int.toNat_le_toNat hle
    omega
  rw [hnil]

/-- Claim C8, witness for `getResultRange_present_never_fails` on `demoFs2`
with the degenerate bounds `start = 5`, `end = 2`. -/
theorem getResultRange_present_witness :
    (getCachedResults demoFs2 1 "exa-1-abc").1 = some demoCached2
    ∧ ((getResultRange demoFs2 1 "exa-1-abc" 5 2).1
          = some (jsSlice demoCached2.results (max 0 5)
              (min (demoCached2.results.length : Int) 2))
        ∧ ((0 : Int) ≤ 2 → min (demoCached2.results.length : Int) 2 ≤ max 0 5 →
            (getResultRange demoFs2 1 "exa-1-abc" 5 2).1 = some [])) :=
  ⟨by decide, getResultRange_present_never_fails demoFs2 1 "exa-1-abc" demoCached2 (by decide) 5 2⟩

end ExaMcp
